import Mathlib

/-!
Verification of the eaopt GA-configuration and population layer.

`GAConfig.NewGA` is embedded from `src/ga_config.go`.  Go effects are made
explicit parameters: `now` stands for `time.Now().UnixNano()` and `addr` for
the heap address chosen by the allocator for the `&GA{...}` allocation, so
Go pointer identity is modelled by the `addr` field of `GA`.  Errors are
modelled as `Option String` (`none` = nil error), and a nil-able pointer or
interface value as an `Option`.
-/

namespace Eaopt

/-- Modelled from the spec: the randomness source (a `math/rand` generator)
is missing from `src/`; it is modelled as a pure generator state holding its
seed.  `rand.new s` models `rand.New(rand.NewSource(s))`. -/
structure Rand where
  seed : Nat
deriving DecidableEq, Repr

/-- Modelled from the spec: creating a randomness source from a seed. -/
def rand.new (seed : Nat) : Rand := ⟨seed⟩

/-- Modelled from the spec: drawing from the generator yields a value and the
successor state (a linear-congruential step; the spec fixes no generator). -/
def Rand.next (r : Rand) : Nat × Rand :=
  (r.seed, ⟨(r.seed * 1103515245 + 12345) % 2147483648⟩)

/-- Modelled from the spec: a `Migrator` is a strategy object exposing
`Validate() error`, checked once at construction; the stored field is the
result its `Validate` method returns. -/
structure Migrator where
  Validate : Option String
deriving DecidableEq

/-- Modelled from the spec: a `Speciator` is a strategy object exposing
`Validate() error`, checked once at construction; the stored field is the
result its `Validate` method returns. -/
structure Speciator where
  Validate : Option String
deriving DecidableEq

/-- Modelled from the spec: the `Model` strategy interface (`Validate() error`,
`Evolve`) is missing from `src/`.  `ModGenerational` is the reference strategy
and `ModSimulatedAnnealing` the strategy holding a back-reference to the GA
(modelled by the heap address of the `*GA`), mirroring the type switch in
`NewGA`.  `validateResult` is what the concrete `Validate()` returns. -/
inductive Model where
  | ModGenerational (validateResult : Option String)
  | ModSimulatedAnnealing (validateResult : Option String) (GA : Option Nat)
deriving DecidableEq

/-- The result of the `Validate()` call on a `Model` value. -/
def Model.Validate : Model → Option String
  | .ModGenerational v => v
  | .ModSimulatedAnnealing v _ => v

/-- `GAConfig` from `src/ga_config.go`.  The function-typed optional fields
(`Logger`, `Callback`, `EarlyStop`, `GenomeJSONUnmarshaler`) are never read by
`NewGA` and are omitted from the model. -/
structure GAConfig where
  NPops : Nat
  PopSize : Nat
  NGenerations : Nat
  HofSize : Nat
  Model : Option Model
  ParallelInit : Bool := false
  ParallelEval : Bool := false
  Migrator : Option Migrator := none
  MigFrequency : Nat := 0
  Speciator : Option Speciator := none
  RNG : Option Rand := none
deriving DecidableEq

/-- Modelled from the spec: the `GA` orchestrator struct is missing from
`src/`.  `NewGA` only fills its embedded `GAConfig`, so the model keeps that
field together with `addr`, the heap address of the `*GA` allocation (Go
pointer identity); run-state fields left zero-valued by `NewGA` are omitted. -/
structure GA where
  GAConfig : GAConfig
  addr : Nat
deriving DecidableEq

/-- The tail of `NewGA` after all validation passed: `ga := &GA{GAConfig: conf}`
followed by the `ModSimulatedAnnealing` special case that points the model's
`GA` field at the freshly allocated GA (`msa.GA = ga; ga.GAConfig.Model = msa`). -/
def newGAInit (conf : GAConfig) (addr : Nat) : Option GA × Option String :=
  match conf.Model with
  | some (Model.ModSimulatedAnnealing v _) =>
    (some { GAConfig := { conf with Model := some (Model.ModSimulatedAnnealing v (some addr)) },
            addr := addr }, none)
  | _ => (some { GAConfig := conf, addr := addr }, none)

/-- The `Speciator` validation block of `NewGA`. -/
def newGACheckSpeciator (conf : GAConfig) (addr : Nat) : Option GA × Option String :=
  match conf.Speciator with
  | some spec =>
    match spec.Validate with
    | some specErr => (none, some specErr)
    | none => newGAInit conf addr
  | none => newGAInit conf addr

/-- `GAConfig.NewGA` from `src/ga_config.go`: default the RNG when absent, run
the configuration checks in source order, then allocate the GA.  The receiver
is passed by value in Go, which the pure function models directly; `now` is
`time.Now().UnixNano()` and `addr` the allocator's choice of heap address. -/
def GAConfig.NewGA (conf : GAConfig) (now : Nat) (addr : Nat) : Option GA × Option String :=
  let conf := if conf.RNG = none then { conf with RNG := some (rand.new now) } else conf
  if conf.NPops = 0 then (none, some "NPops has to be strictly higher than 0")
  else if conf.PopSize = 0 then (none, some "PopSize has to be strictly higher than 0")
  else if conf.NGenerations = 0 then (none, some "NGenerations has to be strictly higher than 0")
  else if conf.HofSize = 0 then (none, some "HofSize has to be strictly higher than 0")
  else
    match conf.Model with
    | none => (none, some "model has to be provided")
    | some m =>
      match m.Validate with
      | some modelErr => (none, some modelErr)
      | none =>
        match conf.Migrator with
        | some mig =>
          match mig.Validate with
          | some migErr => (none, some migErr)
          | none =>
            if conf.MigFrequency = 0 then (none, some "MigFrequency should be higher than 0")
            else newGACheckSpeciator conf addr
        | none => newGACheckSpeciator conf addr

/-- A present `Migrator` passes validation and `MigFrequency` is positive
(vacuously true when no `Migrator` is configured). -/
def GAConfig.migratorOK (conf : GAConfig) : Bool :=
  match conf.Migrator with
  | none => true
  | some mig => mig.Validate.isNone && decide (conf.MigFrequency ≠ 0)

/-- A present `Speciator` passes validation (vacuously true when absent). -/
def GAConfig.speciatorOK (conf : GAConfig) : Bool :=
  match conf.Speciator with
  | none => true
  | some spec => spec.Validate.isNone

/-- A baseline valid configuration used to instantiate the theorems. -/
def okConf : GAConfig :=
  { NPops := 1, PopSize := 30, NGenerations := 50, HofSize := 1,
    Model := some (.ModGenerational none), RNG := some (rand.new 7) }

/-- Modelled from the spec: an `Individual` wraps a `Genome` with its fitness
and an evaluated flag.  The genome type is user-supplied, hence a type
parameter.  The spec's `float64` fitness is modelled as an integer-coded
scalar: the serialization round-trip only needs a value with a canonical
injective encoding, and float arithmetic plays no role in these claims. -/
structure Individual (G : Type) where
  Genome : G
  Fitness : Int
  Evaluated : Bool
deriving DecidableEq

/-- Modelled from the spec: a `Population` is a stable ID, a generation
counter starting at 0, and an ordered sequence of Individuals. -/
structure Population (G : Type) where
  ID : String
  Generation : Nat
  Individuals : List (Individual G)
deriving DecidableEq

/-- Modelled from the spec: the Population ID is derived deterministically
from the randomness source's state and the size at creation. -/
def popID (r : Rand) (size : Nat) : String :=
  "pop-" ++ toString r.seed ++ "-" ++ toString size

/-- Modelled from the spec: sequentially create `n` genomes from the factory,
threading the randomness source through. -/
def makeIndividuals (genomeFactory : Rand → G × Rand) : Nat → Rand → List (Individual G) × Rand
  | 0, r => ([], r)
  | n + 1, r =>
    let p := genomeFactory r
    let rest := makeIndividuals genomeFactory n p.2
    (⟨p.1, 0, false⟩ :: rest.1, rest.2)

/-- Modelled from the spec: `newPopulation(size, parallel, genomeFactory, rng)`
creates `size` Individuals by invoking the factory for each, assigns a
deterministic ID derived from the rng's state and the size, and sets
`Generation = 0`.  The `parallel` flag only changes scheduling of the
fork-join construction, never the produced value, so the model ignores it. -/
def newPopulation (size : Nat) (parallel : Bool) (genomeFactory : Rand → G × Rand)
    (rng : Rand) : Population G × Rand :=
  let made := makeIndividuals genomeFactory size rng
  ({ ID := popID rng size, Generation := 0, Individuals := made.1 }, made.2)

/-- Modelled from the spec: the wire format is a canonical byte sequence. -/
abbrev Bytes := List Nat

/-- Canonical self-delimiting encoding of a natural number. -/
def encNat (n : Nat) : Bytes := List.replicate n 1 ++ [0]

/-- Decoder for `encNat`, returning the value and the unconsumed rest. -/
def decNat : Bytes → Option (Nat × Bytes)
  | [] => none
  | 0 :: r => some (0, r)
  | 1 :: r =>
    match decNat r with
    | some (n, r1) => some (n + 1, r1)
    | none => none
  | _ :: _ => none

/-- Canonical encoding of a boolean. -/
def encBool (b : Bool) : Bytes := [cond b 1 0]

/-- Decoder for `encBool`. -/
def decBool : Bytes → Option (Bool × Bytes)
  | 0 :: r => some (false, r)
  | 1 :: r => some (true, r)
  | _ => none

/-- Canonical encoding of an integer: a sign byte then the magnitude. -/
def encInt (z : Int) : Bytes := (if z < 0 then [1] else [0]) ++ encNat z.natAbs

/-- Decoder for `encInt`. -/
def decInt : Bytes → Option (Int × Bytes)
  | 0 :: r => (decNat r).map fun p => ((p.1 : Int), p.2)
  | 1 :: r => (decNat r).map fun p => (-(p.1 : Int), p.2)
  | _ => none

/-- Take exactly `n` bytes from the stream. -/
def decTake : Nat → Bytes → Option (Bytes × Bytes)
  | 0, r => some ([], r)
  | _ + 1, [] => none
  | n + 1, b :: r => (decTake n r).map fun p => (b :: p.1, p.2)

/-- Length-prefixed embedding of an opaque byte block (the genome encoding,
which the engine treats as opaque). -/
def encBlock (bs : Bytes) : Bytes := encNat bs.length ++ bs

/-- Decoder for `encBlock`. -/
def decBlock (r : Bytes) : Option (Bytes × Bytes) :=
  (decNat r).bind fun p => decTake p.1 p.2

/-- Canonical encoding of a string as its length-prefixed code points. -/
def encString (s : String) : Bytes :=
  encNat s.data.length ++ s.data.map Char.toNat

/-- Decoder for `encString`. -/
def decString (r : Bytes) : Option (String × Bytes) :=
  (decNat r).bind fun p =>
    (decTake p.1 p.2).map fun q => (String.mk (q.1.map Char.ofNat), q.2)

/-- Modelled from the spec: an Individual serializes to its opaque genome
encoding (produced by the genome's own marshaller `eg`), its fitness and its
evaluated flag, in that fixed order. -/
def encIndividual (eg : G → Bytes) (ind : Individual G) : Bytes :=
  encBlock (eg ind.Genome) ++ encInt ind.Fitness ++ encBool ind.Evaluated

/-- Modelled from the spec: decoding an Individual requires the caller-supplied
genome factory `f : bytes -> (Genome, error)` injected at decode time. -/
def decIndividual (f : Bytes → Option G) (r : Bytes) : Option (Individual G × Bytes) :=
  (decBlock r).bind fun p =>
    (f p.1).bind fun g =>
      (decInt p.2).bind fun q =>
        (decBool q.2).map fun w => (⟨g, q.1, w.1⟩, w.2)

/-- Concatenated encodings of a list of items. -/
def encAll (encA : α → Bytes) : List α → Bytes
  | [] => []
  | x :: xs => encA x ++ encAll encA xs

/-- Run a decoder exactly `n` times. -/
def decCount (decA : Bytes → Option (α × Bytes)) : Nat → Bytes → Option (List α × Bytes)
  | 0, r => some ([], r)
  | n + 1, r =>
    (decA r).bind fun p =>
      (decCount decA n p.2).map fun q => (p.1 :: q.1, q.2)

/-- Modelled from the spec: a Population serializes to a structured record
containing its ID, Generation, and an ordered array of encoded Individuals,
with canonical, deterministic field ordering. -/
def encodePopulation (eg : G → Bytes) (p : Population G) : Bytes :=
  encString p.ID ++ encNat p.Generation ++ encNat p.Individuals.length ++
    encAll (encIndividual eg) p.Individuals

/-- Stream decoder for one Population record. -/
def decPopulation (f : Bytes → Option G) (r : Bytes) : Option (Population G × Bytes) :=
  (decString r).bind fun pid =>
    (decNat pid.2).bind fun gen =>
      (decNat gen.2).bind fun n =>
        (decCount (decIndividual f) n.1 n.2).map fun inds =>
          ({ ID := pid.1, Generation := gen.1, Individuals := inds.1 }, inds.2)

/-- Modelled from the spec: decoding a serialized Population; a malformed
encoding (including trailing garbage) aborts the restore entirely. -/
def decodePopulation (f : Bytes → Option G) (bs : Bytes) : Option (Population G) :=
  match decPopulation f bs with
  | some (p, []) => some p
  | _ => none

/-- Modelled from the spec: a Populations collection serializes to its
length-prefixed member records in order. -/
def encodePopulations (eg : G → Bytes) (ps : List (Population G)) : Bytes :=
  encNat ps.length ++ encAll (encodePopulation eg) ps

/-- Modelled from the spec: `newPopulationsFromBytes(nPops, bytes, rng, f)`
restores a Populations collection of the expected cardinality from its
encoding, the genome factory injected at decode time; any mismatch or
malformed data aborts the restore. -/
def newPopulationsFromBytes (nPops : Nat) (f : Bytes → Option G) (bs : Bytes) :
    Option (List (Population G)) :=
  match decNat bs with
  | some (n, r) =>
    if n = nPops then
      match decCount (decPopulation f) n r with
      | some (ps, []) => some ps
      | _ => none
    else none
  | none => none

/-- The genome marshaller of the concrete genome used to instantiate the
round-trip theorem (a boolean genome). -/
def egB (b : Bool) : Bytes := [cond b 1 0]

/-- The genome factory matching `egB`. -/
def fB : Bytes → Option Bool
  | [0] => some false
  | [1] => some true
  | _ => none

/-- A concrete Population over the boolean genome. -/
def popW : Population Bool :=
  { ID := "KVm", Generation := 2,
    Individuals := [⟨true, -2, true⟩, ⟨false, 5, false⟩] }

/-- A configuration whose Model fails validation while NPops is also zero:
the zero-field check fires first, shadowing the model's validation error. -/
def c6Conf : GAConfig :=
  { NPops := 0, PopSize := 1, NGenerations := 1, HofSize := 1,
    Model := some (.ModGenerational (some "boom")), RNG := some (rand.new 0) }

/-- A configuration with no Migrator, MigFrequency zero, all required fields
valid, but an invalid Speciator. -/
def c7Conf : GAConfig :=
  { NPops := 1, PopSize := 1, NGenerations := 1, HofSize := 1,
    Model := some (.ModGenerational none), Migrator := none, MigFrequency := 0,
    Speciator := some ⟨some "speciator is invalid"⟩, RNG := some (rand.new 0) }

theorem newGAInit_snd (c : GAConfig) (addr : Nat) : (newGAInit c addr).2 = none := by
  unfold newGAInit
  rcases hM : c.Model with _ | m
  · simp
  · cases m <;> simp

theorem newGACheckSpeciator_snd (c : GAConfig) (addr : Nat) :
    (newGACheckSpeciator c addr).2 =
      match c.Speciator with
      | some s => s.Validate
      | none => none := by
  unfold newGACheckSpeciator
  rcases hS : c.Speciator with _ | s
  · simp [newGAInit_snd]
  · rcases hV : s.Validate with _ | e <;> simp [newGAInit_snd, hV]

theorem NewGA_error_spec (conf : GAConfig) (now addr : Nat) :
    (conf.NewGA now addr).2 =
      if conf.NPops = 0 then some "NPops has to be strictly higher than 0"
      else if conf.PopSize = 0 then some "PopSize has to be strictly higher than 0"
      else if conf.NGenerations = 0 then some "NGenerations has to be strictly higher than 0"
      else if conf.HofSize = 0 then some "HofSize has to be strictly higher than 0"
      else
        match conf.Model with
        | none => some "model has to be provided"
        | some m =>
          match m.Validate with
          | some e => some e
          | none =>
            match conf.Migrator with
            | some mig =>
              match mig.Validate with
              | some e => some e
              | none =>
                if conf.MigFrequency = 0 then some "MigFrequency should be higher than 0"
                else
                  match conf.Speciator with
                  | some s => s.Validate
                  | none => none
            | none =>
              match conf.Speciator with
              | some s => s.Validate
              | none => none := by
  unfold GAConfig.NewGA
  by_cases hR : conf.RNG = none <;> simp only [hR, if_true, if_false, reduceIte] <;>
    (repeat' first
      | rfl
      | (rw [newGACheckSpeciator_snd])
      | split)

theorem newGAInit_spec (c : GAConfig) (addr : Nat) :
    ∃ ga, newGAInit c addr = (some ga, none) ∧ ga.addr = addr ∧
      ga.GAConfig = { c with Model := ga.GAConfig.Model } ∧
      ga.GAConfig.RNG = c.RNG ∧
      (∀ v g0, c.Model = some (.ModSimulatedAnnealing v g0) →
        ga.GAConfig.Model = some (.ModSimulatedAnnealing v (some addr))) ∧
      ((∀ v g0, c.Model ≠ some (.ModSimulatedAnnealing v g0)) →
        ga.GAConfig.Model = c.Model) := by
  unfold newGAInit
  rcases hM : c.Model with _ | m
  · exact ⟨⟨c, addr⟩, rfl, rfl, rfl, rfl,
      fun v g0 h => Option.noConfusion h, fun _ => hM⟩
  · cases m with
    | ModGenerational v =>
      refine ⟨⟨c, addr⟩, rfl, rfl, rfl, rfl, ?_, fun _ => hM⟩
      intro v2 g2 h
      simp at h
    | ModSimulatedAnnealing v g0 =>
      refine ⟨⟨{ c with Model := some (.ModSimulatedAnnealing v (some addr)) }, addr⟩,
        rfl, rfl, rfl, rfl, ?_, ?_⟩
      · intro v2 g2 h
        obtain ⟨h1, h2⟩ : v = v2 ∧ g0 = g2 := by simpa using h
        subst h1
        rfl
      · intro hno
        exact absurd rfl (hno v g0)

theorem migratorOK_spec (conf : GAConfig) (h : conf.migratorOK = true) :
    ∀ mig, conf.Migrator = some mig → mig.Validate = none ∧ conf.MigFrequency ≠ 0 := by
  intro mig hm
  unfold GAConfig.migratorOK at h
  rw [hm] at h
  simpa [Option.isNone_iff_eq_none] using h

theorem speciatorOK_spec (conf : GAConfig) (h : conf.speciatorOK = true) :
    ∀ s, conf.Speciator = some s → s.Validate = none := by
  intro s hs
  unfold GAConfig.speciatorOK at h
  rw [hs] at h
  simpa [Option.isNone_iff_eq_none] using h

theorem newGAInit_success (c : GAConfig) (addr : Nat) :
    ∃ ga, newGAInit c addr = (some ga, none) :=
  (newGAInit_spec c addr).elim fun ga h => ⟨ga, h.1⟩

theorem newGACheckSpeciator_ok (c : GAConfig) (addr : Nat) (h : c.speciatorOK = true) :
    newGACheckSpeciator c addr = newGAInit c addr := by
  unfold newGACheckSpeciator
  rcases hS : c.Speciator with _ | s
  · rfl
  · dsimp only
    rw [speciatorOK_spec c h s hS]

theorem NewGA_success_spec (conf : GAConfig) (now addr : Nat)
    (h1 : conf.NPops ≠ 0) (h2 : conf.PopSize ≠ 0) (h3 : conf.NGenerations ≠ 0)
    (h4 : conf.HofSize ≠ 0) (m : Model) (hm : conf.Model = some m)
    (hv : m.Validate = none)
    (hmig : conf.migratorOK = true) (hspec : conf.speciatorOK = true) :
    conf.NewGA now addr =
      newGAInit
        { conf with RNG := if conf.RNG = none then some (rand.new now) else conf.RNG }
        addr := by
  unfold GAConfig.NewGA
  by_cases hR : conf.RNG = none
  case pos =>
    simp only [hR, reduceIte]
    try dsimp only
    rw [if_neg h1, if_neg h2, if_neg h3, if_neg h4, hm]
    try dsimp only
    rw [hv]
    try dsimp only
    rcases hMig : conf.Migrator with _ | mig <;> (try dsimp only)
    · exact newGACheckSpeciator_ok _ addr hspec
    · obtain ⟨hmv, hmf⟩ := migratorOK_spec conf hmig mig hMig
      rw [hmv]
      dsimp only
      rw [if_neg hmf]
      exact newGACheckSpeciator_ok _ addr hspec
  case neg =>
    simp only [hR, reduceIte]
    show _ = newGAInit conf addr
    try dsimp only
    rw [if_neg h1, if_neg h2, if_neg h3, if_neg h4, hm]
    try dsimp only
    rw [hv]
    try dsimp only
    rcases hMig : conf.Migrator with _ | mig <;> (try dsimp only)
    · exact newGACheckSpeciator_ok _ addr hspec
    · obtain ⟨hmv, hmf⟩ := migratorOK_spec conf hmig mig hMig
      rw [hmv]
      dsimp only
      rw [if_neg hmf]
      exact newGACheckSpeciator_ok _ addr hspec

theorem NewGA_shape (conf : GAConfig) (now addr : Nat) :
    (∃ e, conf.NewGA now addr = (none, some e)) ∨
    (∃ ga, conf.NewGA now addr = (some ga, none)) := by
  unfold GAConfig.NewGA newGACheckSpeciator
  by_cases hR : conf.RNG = none <;> simp only [hR, reduceIte] <;>
    (repeat' split) <;>
    first
      | exact Or.inl ⟨_, rfl⟩
      | exact Or.inr (newGAInit_success _ _)

theorem specOK_of_match (conf : GAConfig)
    (h : (match conf.Speciator with | some s => s.Validate | none => none) = none) :
    conf.speciatorOK = true := by
  unfold GAConfig.speciatorOK
  rcases hS : conf.Speciator with _ | s
  · rfl
  · rw [hS] at h
    dsimp only at h
    simp [h]

theorem NewGA_ok_of_no_error (conf : GAConfig) (now addr : Nat)
    (h : (conf.NewGA now addr).2 = none) :
    conf.NPops ≠ 0 ∧ conf.PopSize ≠ 0 ∧ conf.NGenerations ≠ 0 ∧ conf.HofSize ≠ 0 ∧
      (∃ m, conf.Model = some m ∧ m.Validate = none) ∧
      conf.migratorOK = true ∧ conf.speciatorOK = true := by
  rw [NewGA_error_spec] at h
  have hA : conf.NPops ≠ 0 := by
    intro h0; rw [if_pos h0] at h; exact Option.noConfusion h
  rw [if_neg hA] at h
  have hB : conf.PopSize ≠ 0 := by
    intro h0; rw [if_pos h0] at h; exact Option.noConfusion h
  rw [if_neg hB] at h
  have hC : conf.NGenerations ≠ 0 := by
    intro h0; rw [if_pos h0] at h; exact Option.noConfusion h
  rw [if_neg hC] at h
  have hD : conf.HofSize ≠ 0 := by
    intro h0; rw [if_pos h0] at h; exact Option.noConfusion h
  rw [if_neg hD] at h
  rcases hM : conf.Model with _ | m
  · rw [hM] at h; exact Option.noConfusion h
  rw [hM] at h
  dsimp only at h
  rcases hV : m.Validate with _ | e
  case some => rw [hV] at h; exact Option.noConfusion h
  rw [hV] at h
  dsimp only at h
  rcases hMig : conf.Migrator with _ | mig
  · rw [hMig] at h
    dsimp only at h
    refine ⟨hA, hB, hC, hD, ⟨m, rfl, hV⟩, ?_, specOK_of_match conf h⟩
    unfold GAConfig.migratorOK
    rw [hMig]
  · rw [hMig] at h
    dsimp only at h
    rcases hMV : mig.Validate with _ | e2
    case some => rw [hMV] at h; exact Option.noConfusion h
    rw [hMV] at h
    dsimp only at h
    have hF : conf.MigFrequency ≠ 0 := by
      intro h0; rw [if_pos h0] at h; exact Option.noConfusion h
    rw [if_neg hF] at h
    refine ⟨hA, hB, hC, hD, ⟨m, rfl, hV⟩, ?_, specOK_of_match conf h⟩
    unfold GAConfig.migratorOK
    rw [hMig]
    simp [hMV, hF]

theorem decNat_encNat (n : Nat) (r : Bytes) : decNat (encNat n ++ r) = some (n, r) := by
  induction n with
  | zero => simp [encNat, decNat]
  | succ n ih =>
    have : encNat (n + 1) ++ r = 1 :: (encNat n ++ r) := by
      simp [encNat, List.replicate_succ]
    rw [this, decNat, ih]

theorem decBool_encBool (b : Bool) (r : Bytes) : decBool (encBool b ++ r) = some (b, r) := by
  cases b <;> simp [encBool, decBool]

theorem decInt_encInt (z : Int) (r : Bytes) : decInt (encInt z ++ r) = some (z, r) := by
  by_cases h : z < 0
  · have h1 : encInt z ++ r = 1 :: (encNat z.natAbs ++ r) := by simp [encInt, h]
    have h2 : -((z.natAbs : Int)) = z := by omega
    rw [h1, decInt, decNat_encNat, Option.map_some', h2]
  · have h1 : encInt z ++ r = 0 :: (encNat z.natAbs ++ r) := by simp [encInt, h]
    have h2 : ((z.natAbs : Int)) = z := by omega
    rw [h1, decInt, decNat_encNat, Option.map_some', h2]

theorem decTake_append (bs r : Bytes) : decTake bs.length (bs ++ r) = some (bs, r) := by
  induction bs with
  | nil => simp [decTake]
  | cons b bs ih => simp [decTake, ih]

theorem decBlock_encBlock (bs r : Bytes) : decBlock (encBlock bs ++ r) = some (bs, r) := by
  simp [encBlock, decBlock, List.append_assoc, decNat_encNat, decTake_append]

theorem decString_encString (s : String) (r : Bytes) :
    decString (encString s ++ r) = some (s, r) := by
  obtain ⟨cs⟩ := s
  have htake : decTake cs.length (cs.map Char.toNat ++ r) = some (cs.map Char.toNat, r) := by
    have h := decTake_append (cs.map Char.toNat) r
    simpa using h
  simp [encString, decString, List.append_assoc, decNat_encNat, htake,
    List.map_map, Function.comp_def, Char.ofNat_toNat]

theorem decIndividual_encIndividual (eg : G → Bytes) (f : Bytes → Option G)
    (H : ∀ g, ∃ g2, f (eg g) = some g2 ∧ eg g2 = eg g)
    (i : Individual G) (r : Bytes) :
    ∃ i2, decIndividual f (encIndividual eg i ++ r) = some (i2, r) ∧
      encIndividual eg i2 = encIndividual eg i := by
  obtain ⟨g2, hf, he⟩ := H i.Genome
  refine ⟨⟨g2, i.Fitness, i.Evaluated⟩, ?_, ?_⟩
  · simp [decIndividual, encIndividual, List.append_assoc, decBlock_encBlock, hf,
      decInt_encInt, decBool_encBool]
  · simp [encIndividual, he]

theorem decCount_encAll_individuals (eg : G → Bytes) (f : Bytes → Option G)
    (H : ∀ g, ∃ g2, f (eg g) = some g2 ∧ eg g2 = eg g) :
    ∀ (is : List (Individual G)) (r : Bytes),
      ∃ is2, decCount (decIndividual f) is.length (encAll (encIndividual eg) is ++ r) =
          some (is2, r) ∧
        encAll (encIndividual eg) is2 = encAll (encIndividual eg) is ∧
        is2.length = is.length
  | [], r => ⟨[], by simp [decCount, encAll], rfl, rfl⟩
  | i :: is, r => by
    obtain ⟨i2, hd, he⟩ :=
      decIndividual_encIndividual eg f H i (encAll (encIndividual eg) is ++ r)
    obtain ⟨is2, hd2, he2, hl⟩ := decCount_encAll_individuals eg f H is r
    refine ⟨i2 :: is2, ?_, ?_, ?_⟩
    · simp only [List.length_cons, decCount, encAll, List.append_assoc] at hd ⊢
      rw [hd]
      simp [hd2]
    · simp [encAll, he, he2]
    · simp [hl]

theorem decPopulation_encodePopulation (eg : G → Bytes) (f : Bytes → Option G)
    (H : ∀ g, ∃ g2, f (eg g) = some g2 ∧ eg g2 = eg g)
    (p : Population G) (r : Bytes) :
    ∃ q, decPopulation f (encodePopulation eg p ++ r) = some (q, r) ∧
      encodePopulation eg q = encodePopulation eg p := by
  obtain ⟨is2, hd, he, hl⟩ := decCount_encAll_individuals eg f H p.Individuals r
  refine ⟨⟨p.ID, p.Generation, is2⟩, ?_, ?_⟩
  · simp [decPopulation, encodePopulation, List.append_assoc, decString_encString,
      decNat_encNat, hd]
  · simp [encodePopulation, he, hl]

theorem decCount_encAll_populations (eg : G → Bytes) (f : Bytes → Option G)
    (H : ∀ g, ∃ g2, f (eg g) = some g2 ∧ eg g2 = eg g) :
    ∀ (ps : List (Population G)) (r : Bytes),
      ∃ qs, decCount (decPopulation f) ps.length (encAll (encodePopulation eg) ps ++ r) =
          some (qs, r) ∧
        encAll (encodePopulation eg) qs = encAll (encodePopulation eg) ps ∧
        qs.length = ps.length
  | [], r => ⟨[], by simp [decCount, encAll], rfl, rfl⟩
  | p :: ps, r => by
    obtain ⟨q, hd, he⟩ :=
      decPopulation_encodePopulation eg f H p (encAll (encodePopulation eg) ps ++ r)
    obtain ⟨qs, hd2, he2, hl⟩ := decCount_encAll_populations eg f H ps r
    refine ⟨q :: qs, ?_, ?_, ?_⟩
    · simp only [List.length_cons, decCount, encAll, List.append_assoc] at hd ⊢
      rw [hd]
      simp [hd2]
    · simp [encAll, he, he2]
    · simp [hl]

theorem NewGA_pair_eq (conf : GAConfig) (now addr : Nat) (e : String)
    (h : (conf.NewGA now addr).2 = some e) :
    conf.NewGA now addr = (none, some e) := by
  rcases NewGA_shape conf now addr with ⟨e2, hEq⟩ | ⟨ga, hEq⟩
  · rw [hEq] at h
    obtain rfl : e2 = e := by simpa using h
    exact hEq
  · rw [hEq] at h
    exact absurd h (by simp)

/-- C1: For every GAConfig in which NPops = 0, or PopSize = 0, or
NGenerations = 0, or HofSize = 0, or the Model is absent, or a Migrator is
set while MigFrequency = 0, NewGA returns a non-nil error, and the dedicated
descriptive message whenever the corresponding check is the first to fail
(the checks run in source order). -/
theorem NewGA_invalid_config_error (conf : GAConfig) (now addr : Nat)
    (h : conf.NPops = 0 ∨ conf.PopSize = 0 ∨ conf.NGenerations = 0 ∨ conf.HofSize = 0 ∨
      conf.Model = none ∨ (conf.Migrator ≠ none ∧ conf.MigFrequency = 0)) :
    (∃ e, (conf.NewGA now addr).2 = some e) ∧
    (conf.NPops = 0 →
      (conf.NewGA now addr).2 = some "NPops has to be strictly higher than 0") ∧
    (conf.NPops ≠ 0 → conf.PopSize = 0 →
      (conf.NewGA now addr).2 = some "PopSize has to be strictly higher than 0") ∧
    (conf.NPops ≠ 0 → conf.PopSize ≠ 0 → conf.NGenerations = 0 →
      (conf.NewGA now addr).2 = some "NGenerations has to be strictly higher than 0") ∧
    (conf.NPops ≠ 0 → conf.PopSize ≠ 0 → conf.NGenerations ≠ 0 → conf.HofSize = 0 →
      (conf.NewGA now addr).2 = some "HofSize has to be strictly higher than 0") ∧
    (conf.NPops ≠ 0 → conf.PopSize ≠ 0 → conf.NGenerations ≠ 0 → conf.HofSize ≠ 0 →
      conf.Model = none → (conf.NewGA now addr).2 = some "model has to be provided") ∧
    (∀ m mig, conf.NPops ≠ 0 → conf.PopSize ≠ 0 → conf.NGenerations ≠ 0 →
      conf.HofSize ≠ 0 → conf.Model = some m → m.Validate = none →
      conf.Migrator = some mig → mig.Validate = none → conf.MigFrequency = 0 →
      (conf.NewGA now addr).2 = some "MigFrequency should be higher than 0") := by
  refine ⟨?_, ?_, ?_, ?_, ?_, ?_, ?_⟩
  · rcases NewGA_shape conf now addr with ⟨e, hEq⟩ | ⟨ga, hEq⟩
    · exact ⟨e, by rw [hEq]⟩
    · exfalso
      obtain ⟨hA, hB, hC, hD, ⟨m, hM, hV⟩, hMig, hSpec⟩ :=
        NewGA_ok_of_no_error conf now addr (by rw [hEq])
      rcases h with h | h | h | h | h | ⟨hmig, hfreq⟩
      · exact hA h
      · exact hB h
      · exact hC h
      · exact hD h
      · rw [hM] at h; exact Option.noConfusion h
      · obtain ⟨mig, hmigEq⟩ := Option.ne_none_iff_exists'.mp hmig
        obtain ⟨-, hf⟩ := migratorOK_spec conf hMig mig hmigEq
        exact hf hfreq
  · intro h0
    rw [NewGA_error_spec, if_pos h0]
  · intro hA h0
    rw [NewGA_error_spec, if_neg hA, if_pos h0]
  · intro hA hB h0
    rw [NewGA_error_spec, if_neg hA, if_neg hB, if_pos h0]
  · intro hA hB hC h0
    rw [NewGA_error_spec, if_neg hA, if_neg hB, if_neg hC, if_pos h0]
  · intro hA hB hC hD h0
    rw [NewGA_error_spec, if_neg hA, if_neg hB, if_neg hC, if_neg hD, h0]
  · intro m mig hA hB hC hD hM hV hMig hMV hF
    rw [NewGA_error_spec, if_neg hA, if_neg hB, if_neg hC, if_neg hD, hM]
    dsimp only
    rw [hV]
    dsimp only
    rw [hMig]
    dsimp only
    rw [hMV]
    dsimp only
    rw [if_pos hF]

/-- Witness for C1 at a configuration with NPops = 0. -/
theorem NewGA_invalid_config_error_witness :
    ∃ e, (({ okConf with NPops := 0 } : GAConfig).NewGA 0 0).2 = some e :=
  (NewGA_invalid_config_error { okConf with NPops := 0 } 0 0 (Or.inl rfl)).1

/-- C2: whenever NewGA returns a non-nil error, the returned GA pointer is
nil; the error is a returned value of the function, never a process abort
(the embedding returns the pair exactly as the Go function does). -/
theorem NewGA_fails_closed (conf : GAConfig) (now addr : Nat) (e : String)
    (h : (conf.NewGA now addr).2 = some e) : (conf.NewGA now addr).1 = none := by
  rw [NewGA_pair_eq conf now addr e h]

/-- Witness for C2 at a configuration rejected for NPops = 0. -/
theorem NewGA_fails_closed_witness :
    (({ okConf with NPops := 0 } : GAConfig).NewGA 0 0).2 =
      some "NPops has to be strictly higher than 0" ∧
    (({ okConf with NPops := 0 } : GAConfig).NewGA 0 0).1 = none :=
  ⟨rfl, NewGA_fails_closed _ 0 0 "NPops has to be strictly higher than 0" rfl⟩

/-- C3: for any Population and any Populations collection, decoding an
encoding and re-encoding the decoded value reproduces the original encoding
byte for byte, provided the caller-supplied genome factory inverts the
genome marshaller up to encoding. -/
theorem population_serialization_roundtrip (G : Type) (eg : G → Bytes)
    (f : Bytes → Option G)
    (H : ∀ g, ∃ g2, f (eg g) = some g2 ∧ eg g2 = eg g) :
    (∀ p : Population G, ∃ q, decodePopulation f (encodePopulation eg p) = some q ∧
        encodePopulation eg q = encodePopulation eg p) ∧
    (∀ ps : List (Population G), ∃ qs,
        newPopulationsFromBytes ps.length f (encodePopulations eg ps) = some qs ∧
        encodePopulations eg qs = encodePopulations eg ps) := by
  constructor
  · intro p
    obtain ⟨q, hd, he⟩ := decPopulation_encodePopulation eg f H p []
    rw [List.append_nil] at hd
    refine ⟨q, ?_, he⟩
    unfold decodePopulation
    rw [hd]
  · intro ps
    obtain ⟨qs, hd, he, hl⟩ := decCount_encAll_populations eg f H ps []
    rw [List.append_nil] at hd
    refine ⟨qs, ?_, ?_⟩
    · unfold newPopulationsFromBytes
      rw [encodePopulations, decNat_encNat]
      dsimp only
      rw [if_pos rfl, hd]
    · rw [encodePopulations, encodePopulations, he, hl]

/-- Witness for C3 on a concrete boolean-genome Population. -/
theorem population_serialization_roundtrip_witness :
    (∃ q, decodePopulation fB (encodePopulation egB popW) = some q ∧
      encodePopulation egB q = encodePopulation egB popW) ∧
    (∃ qs, newPopulationsFromBytes 1 fB (encodePopulations egB [popW]) = some qs ∧
      encodePopulations egB qs = encodePopulations egB [popW]) := by
  have H : ∀ g : Bool, ∃ g2, fB (egB g) = some g2 ∧ egB g2 = egB g := by decide
  exact ⟨(population_serialization_roundtrip Bool egB fB H).1 popW,
    (population_serialization_roundtrip Bool egB fB H).2 [popW]⟩

/-- C5: the ID of a newly created Population depends only on the
randomness-source seed and the size: two creations with the same seed and
size agree on the ID regardless of the genome factory, the parallel flag, or
the run. -/
theorem population_ID_deterministic (G G2 : Type)
    (factory : Rand → G × Rand) (factory2 : Rand → G2 × Rand)
    (par par2 : Bool) (s size : Nat) :
    (newPopulation size par factory (rand.new s)).1.ID =
      (newPopulation size par2 factory2 (rand.new s)).1.ID := rfl

/-- Counterexample for C6 as stated: a config whose Model.Validate returns
"boom" but whose NPops is 0; NewGA returns the NPops message, not the model
error. -/
theorem NewGA_model_error_shadowed :
    (∃ m, c6Conf.Model = some m ∧ m.Validate = some "boom") ∧
    (c6Conf.NewGA 0 0).2 = some "NPops has to be strictly higher than 0" ∧
    (c6Conf.NewGA 0 0).2 ≠ some "boom" := by
  refine ⟨⟨.ModGenerational (some "boom"), rfl, rfl⟩, rfl, ?_⟩
  decide

/-- C6 (amended): provided the zero-value checks pass (and, for a Migrator
error, Model.Validate succeeded; for a Speciator error, Model.Validate
succeeded and any Migrator present validated with MigFrequency > 0), NewGA
returns exactly the error produced by the failing Validate, at construction
time. -/
theorem NewGA_validate_error_propagates (conf : GAConfig) (now addr : Nat)
    (h1 : conf.NPops ≠ 0) (h2 : conf.PopSize ≠ 0) (h3 : conf.NGenerations ≠ 0)
    (h4 : conf.HofSize ≠ 0) :
    (∀ m e, conf.Model = some m → m.Validate = some e →
      conf.NewGA now addr = (none, some e)) ∧
    (∀ m mig e, conf.Model = some m → m.Validate = none → conf.Migrator = some mig →
      mig.Validate = some e → conf.NewGA now addr = (none, some e)) ∧
    (∀ m s e, conf.Model = some m → m.Validate = none → conf.Speciator = some s →
      s.Validate = some e → conf.migratorOK = true →
      conf.NewGA now addr = (none, some e)) := by
  refine ⟨?_, ?_, ?_⟩
  · intro m e hm hv
    apply NewGA_pair_eq
    rw [NewGA_error_spec, if_neg h1, if_neg h2, if_neg h3, if_neg h4, hm]
    dsimp only
    rw [hv]
  · intro m mig e hm hv hmig hmv
    apply NewGA_pair_eq
    rw [NewGA_error_spec, if_neg h1, if_neg h2, if_neg h3, if_neg h4, hm]
    dsimp only
    rw [hv]
    dsimp only
    rw [hmig]
    dsimp only
    rw [hmv]
  · intro m s e hm hv hs hsv hmigOK
    apply NewGA_pair_eq
    rw [NewGA_error_spec, if_neg h1, if_neg h2, if_neg h3, if_neg h4, hm]
    dsimp only
    rw [hv]
    dsimp only
    rcases hMig : conf.Migrator with _ | mig
    · dsimp only
      rw [hs]
      dsimp only
      exact hsv
    · obtain ⟨hmv2, hf⟩ := migratorOK_spec conf hmigOK mig hMig
      dsimp only
      rw [hmv2]
      dsimp only
      rw [if_neg hf, hs]
      dsimp only
      exact hsv

/-- Witness for C6 (amended) at a model whose Validate fails with "boom". -/
theorem NewGA_validate_error_propagates_witness :
    ({ okConf with Model := some (.ModGenerational (some "boom")) } : GAConfig).NewGA 0 0 =
      (none, some "boom") :=
  (NewGA_validate_error_propagates _ 0 0 (by decide) (by decide) (by decide)
      (by decide)).1 (.ModGenerational (some "boom")) "boom" rfl rfl

/-- Counterexample for C7 as stated: Migrator absent, MigFrequency = 0, all
required fields valid, yet NewGA fails because the (optional) Speciator is
invalid. -/
theorem NewGA_no_migrator_not_always_success :
    c7Conf.Migrator = none ∧ c7Conf.MigFrequency = 0 ∧
    c7Conf.NPops ≠ 0 ∧ c7Conf.PopSize ≠ 0 ∧ c7Conf.NGenerations ≠ 0 ∧
    c7Conf.HofSize ≠ 0 ∧
    (∃ m, c7Conf.Model = some m ∧ m.Validate = none) ∧
    c7Conf.NewGA 0 0 = (none, some "speciator is invalid") := by
  refine ⟨rfl, rfl, by decide, by decide, by decide, by decide,
    ⟨.ModGenerational none, rfl, rfl⟩, ?_⟩
  rfl

/-- C7 (amended): with Migrator absent, MigFrequency = 0, all required fields
valid, and any present Speciator passing validation, NewGA succeeds: the
missing Migrator exempts MigFrequency from validation. -/
theorem NewGA_no_migrator_succeeds (conf : GAConfig) (now addr : Nat)
    (hmig : conf.Migrator = none) (hfreq : conf.MigFrequency = 0)
    (h1 : conf.NPops ≠ 0) (h2 : conf.PopSize ≠ 0) (h3 : conf.NGenerations ≠ 0)
    (h4 : conf.HofSize ≠ 0) (m : Model) (hm : conf.Model = some m)
    (hv : m.Validate = none) (hspec : conf.speciatorOK = true) :
    ∃ ga, conf.NewGA now addr = (some ga, none) := by
  have hmigOK : conf.migratorOK = true := by
    unfold GAConfig.migratorOK
    rw [hmig]
  rw [NewGA_success_spec conf now addr h1 h2 h3 h4 m hm hv hmigOK hspec]
  exact newGAInit_success _ addr

/-- Witness for C7 (amended) at the default-like valid config. -/
theorem NewGA_no_migrator_succeeds_witness :
    ∃ ga, okConf.NewGA 0 0 = (some ga, none) :=
  NewGA_no_migrator_succeeds okConf 0 0 rfl rfl (by decide) (by decide) (by decide)
    (by decide) (.ModGenerational none) rfl rfl rfl

/-- C8: the randomness source is optional; with RNG absent and the rest of
the configuration valid, NewGA succeeds and the returned GA holds the
time-seeded generator installed in place of the missing one. -/
theorem NewGA_default_RNG (conf : GAConfig) (now addr : Nat)
    (hr : conf.RNG = none)
    (h1 : conf.NPops ≠ 0) (h2 : conf.PopSize ≠ 0) (h3 : conf.NGenerations ≠ 0)
    (h4 : conf.HofSize ≠ 0) (m : Model) (hm : conf.Model = some m)
    (hv : m.Validate = none)
    (hmig : conf.migratorOK = true) (hspec : conf.speciatorOK = true) :
    ∃ ga, conf.NewGA now addr = (some ga, none) ∧
      ga.GAConfig.RNG = some (rand.new now) := by
  rw [NewGA_success_spec conf now addr h1 h2 h3 h4 m hm hv hmig hspec]
  obtain ⟨ga, hEq, hAddr, hCfg, hRNG, hMSA, hKeep⟩ := newGAInit_spec _ addr
  refine ⟨ga, hEq, ?_⟩
  rw [hRNG]
  dsimp only
  rw [if_pos hr]

/-- Witness for C8 at the valid config with RNG removed, time 99. -/
theorem NewGA_default_RNG_witness :
    ∃ ga, ({ okConf with RNG := none } : GAConfig).NewGA 99 0 = (some ga, none) ∧
      ga.GAConfig.RNG = some (rand.new 99) :=
  NewGA_default_RNG _ 99 0 rfl (by decide) (by decide) (by decide) (by decide)
    (.ModGenerational none) rfl rfl rfl rfl

/-- C9: for a valid config whose Model is a ModSimulatedAnnealing, the
returned GA's Model carries a back-reference to the very GA allocation that
NewGA returns (pointer identity modelled by the heap address). -/
theorem NewGA_msa_backreference (conf : GAConfig) (now addr : Nat) (g0 : Option Nat)
    (h1 : conf.NPops ≠ 0) (h2 : conf.PopSize ≠ 0) (h3 : conf.NGenerations ≠ 0)
    (h4 : conf.HofSize ≠ 0)
    (hm : conf.Model = some (.ModSimulatedAnnealing none g0))
    (hmig : conf.migratorOK = true) (hspec : conf.speciatorOK = true) :
    ∃ ga, conf.NewGA now addr = (some ga, none) ∧ ga.addr = addr ∧
      ga.GAConfig.Model = some (.ModSimulatedAnnealing none (some ga.addr)) := by
  rw [NewGA_success_spec conf now addr h1 h2 h3 h4 _ hm rfl hmig hspec]
  obtain ⟨ga, hEq, hAddr, hCfg, hRNG, hMSA, hKeep⟩ := newGAInit_spec _ addr
  refine ⟨ga, hEq, hAddr, ?_⟩
  have hM2 : ga.GAConfig.Model = some (.ModSimulatedAnnealing none (some addr)) := by
    apply hMSA
    dsimp only
    exact hm
  rw [hM2, hAddr]

/-- Witness for C9 with a simulated-annealing model, address 7. -/
theorem NewGA_msa_backreference_witness :
    ∃ ga, ({ okConf with Model := some (.ModSimulatedAnnealing none none) } :
        GAConfig).NewGA 0 7 = (some ga, none) ∧ ga.addr = 7 ∧
      ga.GAConfig.Model = some (.ModSimulatedAnnealing none (some ga.addr)) :=
  NewGA_msa_backreference _ 0 7 none (by decide) (by decide) (by decide) (by decide)
    rfl rfl rfl

/-- C10: NewGA works on a by-value copy of the configuration (the pure
function consumes its argument immutably, exactly as Go's value receiver
leaves the caller's GAConfig unchanged); the only fields on which the copy
embedded in the returned GA may differ from the caller's value are RNG and
Model: overwriting those two with the caller's originals recovers the input
exactly, and RNG is only replaced when it was absent. -/
theorem NewGA_receiver_copy_confined (conf : GAConfig) (now addr : Nat) (ga : GA)
    (h : (conf.NewGA now addr).1 = some ga) :
    { ga.GAConfig with RNG := conf.RNG, Model := conf.Model } = conf ∧
    (conf.RNG ≠ none → ga.GAConfig.RNG = conf.RNG) := by
  have hsnd : (conf.NewGA now addr).2 = none := by
    rcases NewGA_shape conf now addr with ⟨e, hEq⟩ | ⟨ga2, hEq⟩
    · rw [hEq] at h
      exact absurd h (by simp)
    · rw [hEq]
  obtain ⟨hA, hB, hC, hD, ⟨m, hM, hV⟩, hMig, hSpec⟩ :=
    NewGA_ok_of_no_error conf now addr hsnd
  have hEq2 := NewGA_success_spec conf now addr hA hB hC hD m hM hV hMig hSpec
  obtain ⟨ga2, hEq3, hAddr, hCfg, hRNG, hMSA, hKeep⟩ :=
    newGAInit_spec
      { conf with RNG := if conf.RNG = none then some (rand.new now) else conf.RNG } addr
  rw [hEq2, hEq3] at h
  obtain rfl : ga2 = ga := by simpa using h
  constructor
  · rw [hCfg]
  · intro hr
    rw [hRNG]
    dsimp only
    rw [if_neg hr]

/-- Witness for C10 at the valid config (RNG present, model untouched). -/
theorem NewGA_receiver_copy_confined_witness :
    { ({ GAConfig := okConf, addr := 0 } : GA).GAConfig with
        RNG := okConf.RNG, Model := okConf.Model } = okConf ∧
    (okConf.RNG ≠ none →
      ({ GAConfig := okConf, addr := 0 } : GA).GAConfig.RNG = okConf.RNG) :=
  NewGA_receiver_copy_confined okConf 0 0 { GAConfig := okConf, addr := 0 } rfl

end Eaopt
